import Mathlib

/-!
Shallow embedding of the solar-globe core pipeline of the `sunalyse`
repository:

* `parseFITS` — the FITS decoder of
  `client/src/features/solar-globe/fits/fitsUtils.ts`;
* `getColorForValue` / `getColorForValueGLSL` — the CPU and GLSL colormaps of
  `client/src/features/solar-globe/utils/colorMapping.ts`;
* `createDataTextureArray` — the normalizer loop of
  `client/src/features/solar-globe/utils/textureCreation.ts`;
* the transition tick of `client/src/features/solar-globe/hooks/useThreeScene.ts`
  and the 2-D canvas transition of
  `client/src/features/solar-globe/GlobeViewer.tsx`;
* the field-line filtering loop of `useThreeScene.ts`.

JavaScript numbers are modelled as `JsNum`: an exact rational together with
the three non-finite values `NaN`, `Infinity`, `-Infinity`; byte buffers are
`List Nat` with each element a byte value.
-/

set_option allowUnsafeReducibility true
set_option maxRecDepth 100000
set_option maxHeartbeats 2000000
attribute [local semireducible] Rat.mul Rat.add Rat.div Rat.sub Rat.neg Rat.normalize
  Rat.inv Rat.ofScientific Rat.floor Rat.ceil

/-- Decidable equality for `Except`, so that decoder runs on concrete
buffers can be settled by `decide`. -/
instance {e a : Type} [DecidableEq e] [DecidableEq a] : DecidableEq (Except e a) := fun x y =>
  match x, y with
  | .ok u, .ok v =>
    if h : u = v then .isTrue (by rw [h]) else .isFalse (fun hh => h (Except.ok.inj hh))
  | .error u, .error v =>
    if h : u = v then .isTrue (by rw [h]) else .isFalse (fun hh => h (Except.error.inj hh))
  | .ok _, .error _ => .isFalse (fun hh => Except.noConfusion hh)
  | .error _, .ok _ => .isFalse (fun hh => Except.noConfusion hh)

/-- A JavaScript number: a finite (exact rational) value, `NaN`,
`Infinity` or `-Infinity`. -/
inductive JsNum where
  | nan : JsNum
  | posInf : JsNum
  | negInf : JsNum
  | num (q : ℚ) : JsNum
deriving DecidableEq

/-- JavaScript `<` comparison: any comparison involving `NaN` is false. -/
def JsNum.ltb : JsNum → JsNum → Bool
  | .nan, _ => false
  | _, .nan => false
  | .negInf, .negInf => false
  | .negInf, _ => true
  | _, .negInf => false
  | .posInf, _ => false
  | .num _, .posInf => true
  | .num a, .num b => decide (a < b)

/-- JavaScript `Math.min`: `NaN` propagates. -/
def JsNum.jmin : JsNum → JsNum → JsNum
  | .nan, _ => .nan
  | _, .nan => .nan
  | .negInf, _ => .negInf
  | _, .negInf => .negInf
  | .posInf, b => b
  | a, .posInf => a
  | .num a, .num b => .num (min a b)

/-- JavaScript `Math.max`: `NaN` propagates. -/
def JsNum.jmax : JsNum → JsNum → JsNum
  | .nan, _ => .nan
  | _, .nan => .nan
  | .posInf, _ => .posInf
  | _, .posInf => .posInf
  | .negInf, b => b
  | a, .negInf => a
  | .num a, .num b => .num (max a b)

/-- JavaScript subtraction on numbers (`∞ - ∞ = NaN`). -/
def JsNum.sub : JsNum → JsNum → JsNum
  | .nan, _ => .nan
  | _, .nan => .nan
  | .posInf, .posInf => .nan
  | .negInf, .negInf => .nan
  | .posInf, _ => .posInf
  | .negInf, _ => .negInf
  | .num _, .posInf => .negInf
  | .num _, .negInf => .posInf
  | .num a, .num b => .num (a - b)

/-- JavaScript division on numbers (`0/0 = NaN`, `x/0 = ±∞` for `x ≠ 0`,
`∞/∞ = NaN`, finite/∞ = 0). Negative zero is not modelled; a zero
denominator behaves as `+0`. -/
def JsNum.div : JsNum → JsNum → JsNum
  | .nan, _ => .nan
  | _, .nan => .nan
  | .posInf, .posInf => .nan
  | .posInf, .negInf => .nan
  | .negInf, .posInf => .nan
  | .negInf, .negInf => .nan
  | .posInf, .num b => if b < 0 then .negInf else .posInf
  | .negInf, .num b => if b < 0 then .posInf else .negInf
  | .num _, .posInf => .num 0
  | .num _, .negInf => .num 0
  | .num a, .num b =>
      if b = 0 then
        if a = 0 then .nan else if a < 0 then .negInf else .posInf
      else .num (a / b)

/-- The `Number.isFinite` coercion used by the decoder:
`if (!Number.isFinite(value)) value = 0`. -/
def JsNum.finify : JsNum → ℚ
  | .num q => q
  | _ => 0

/- ## Byte-string helpers (TextDecoder / String.prototype / parseInt) -/

/-- Whitespace bytes under windows-1252 decoding, as recognised by
`String.prototype.trim` and `parseInt`: TAB, LF, VT, FF, CR, space, NBSP. -/
def isWsByte (b : Nat) : Bool :=
  b = 9 || b = 10 || b = 11 || b = 12 || b = 13 || b = 32 || b = 160

/-- JavaScript `String.prototype.trim` on a byte string. -/
def trimBytes (l : List Nat) : List Nat :=
  ((l.dropWhile isWsByte).reverse.dropWhile isWsByte).reverse

def isDigitByte (b : Nat) : Bool := 48 ≤ b && b ≤ 57

def isHexDigitByte (b : Nat) : Bool :=
  (48 ≤ b && b ≤ 57) || (65 ≤ b && b ≤ 70) || (97 ≤ b && b ≤ 102)

def hexVal (b : Nat) : Nat :=
  if b ≤ 57 then b - 48 else if b ≤ 70 then b - 55 else b - 87

/-- Value of a list of decimal digit bytes. -/
def decimalOfDigits (l : List Nat) : Nat :=
  l.foldl (fun a b => a * 10 + (b - 48)) 0

/-- Value of a list of hexadecimal digit bytes. -/
def hexOfDigits (l : List Nat) : Nat :=
  l.foldl (fun a b => a * 16 + hexVal b) 0

/-- JavaScript `parseInt(s)` (radix unspecified) on a byte string:
skip leading whitespace, optional sign, then either a `0x`/`0X`
hexadecimal literal or a maximal run of decimal digits; `none` models the
`NaN` result when no digit is found. -/
def parseJsInt (l : List Nat) : Option Int :=
  let l1 := l.dropWhile isWsByte
  let sign : Int := match l1 with
    | 45 :: _ => -1
    | _ => 1
  let l2 : List Nat := match l1 with
    | 45 :: r => r
    | 43 :: r => r
    | _ => l1
  match l2 with
  | 48 :: 120 :: r =>
      let ds := r.takeWhile isHexDigitByte
      if ds.isEmpty then none else some (sign * (hexOfDigits ds : ℤ))
  | 48 :: 88 :: r =>
      let ds := r.takeWhile isHexDigitByte
      if ds.isEmpty then none else some (sign * (hexOfDigits ds : ℤ))
  | _ =>
      let ds := l2.takeWhile isDigitByte
      if ds.isEmpty then none else some (sign * (decimalOfDigits ds : ℤ))

/-- Split a byte string into maximal runs of non-line-terminator bytes; the
regex `/.{1,80}/g` never matches a line terminator (LF or CR here, the only
terminators reachable from single-byte windows-1252 decoding). -/
def splitRunsGo (cur : List Nat) (acc : List (List Nat)) :
    List Nat → List (List Nat)
  | [] => (cur.reverse :: acc).reverse
  | b :: bs =>
    if b = 10 || b = 13 then splitRunsGo [] (cur.reverse :: acc) bs
    else splitRunsGo (b :: cur) acc bs

def splitRuns (l : List Nat) : List (List Nat) :=
  (splitRunsGo [] [] l).filter (fun r => !r.isEmpty)

/-- Tail-recursive worker for `chunksOf`: `k` is the remaining capacity of
the chunk being built (reversed in `cur`), `acc` holds finished chunks
(reversed). -/
def chunksGo (c : Nat) : Nat → List α → List (List α) → List α → List (List α)
  | _, cur, acc, [] =>
      (if cur.isEmpty then acc else cur.reverse :: acc).reverse
  | k, cur, acc, x :: xs =>
      if k ≤ 1 then chunksGo c c [] ((x :: cur).reverse :: acc) xs
      else chunksGo c (k - 1) (x :: cur) acc xs

/-- Chop a list into successive chunks of `c` elements, the last possibly
shorter. -/
def chunksOf (c : Nat) (l : List α) : List (List α) :=
  chunksGo c c [] [] l

/-- The card list produced by `headerBlock.match(/.{1,80}/g)`: maximal
terminator-free runs, each chopped into pieces of at most 80 characters. -/
def matchCards (l : List Nat) : List (List Nat) :=
  (splitRuns l).flatMap (chunksOf 80)

/-- JavaScript `line.startsWith(pat)` on byte strings. -/
def bytesStartWith (pat l : List Nat) : Bool :=
  l.take pat.length == pat

/-- ASCII byte codes of a Lean string (all our card prefixes are ASCII). -/
def asciiOf (s : String) : List Nat := s.toList.map Char.toNat

/- ## FITS decoder: fitsUtils.ts `parseFITS` -/

/-- Decoded FITS record: `{ data, width, height, min, max }` as built by
`parseFITS`. `width`/`height` hold the parsed card values (JavaScript
numbers holding integers here); `min`/`max` start at `Infinity` /
`-Infinity` and stay there when no sample is read. -/
structure FITSData where
  data : List (List ℚ)
  width : Int
  height : Int
  min : JsNum
  max : JsNum
deriving DecidableEq

/-- The failure modes of `parseFITS`, all of which the surrounding
`try/catch` collapses to `null`:
* `truncatedHeader` — the `RangeError` thrown by
  `new Uint8Array(arrayBuffer, offset, 2880)` when fewer than 2880 bytes
  remain;
* `malformedCard` — the `TypeError` thrown by `line.split("=")[1].split`
  when a recognised card has no `=`;
* `missingDimension` — the explicit `throw new Error("Invalid FITS file:
  missing dimensions")`;
* `truncatedPayload` — the `RangeError` thrown by a `DataView` getter
  reading past the end of the buffer. -/
inductive ParseErr where
  | truncatedHeader : ParseErr
  | malformedCard : ParseErr
  | missingDimension : ParseErr
  | truncatedPayload : ParseErr
deriving DecidableEq

/-- Header-scan state: the `width`, `height`, `bitpix` variables.  Each is a
JavaScript number that is either an integer or `NaN` (from `parseInt` of a
digit-free value); `none` models `NaN`, and all three start at `some 0`. -/
structure HeaderSt where
  width : Option Int
  height : Option Int
  bitpix : Option Int
deriving DecidableEq

/-- Evaluation of the card value `line.split("=")[1].split("/")[0].trim()`
then `parseInt`: the segment
between the first and second `=`, cut at the first `/`, trimmed.  A card
with no `=` makes `split("=")[1]` `undefined` and the second `.split` throw
a `TypeError`. -/
def cardValue (card : List Nat) : Except ParseErr (Option Int) :=
  if (card.filter (fun b => b = 61)).isEmpty then .error .malformedCard
  else
    let afterEq := ((card.dropWhile (fun b => b ≠ 61)).drop 1).takeWhile (fun b => b ≠ 61)
    let beforeSlash := afterEq.takeWhile (fun b => b ≠ 47)
    .ok (parseJsInt (trimBytes beforeSlash))

/-- Process the cards of one header block in order, mirroring the
`for (const line of lines)` body: `NAXIS1` / `NAXIS2` / `BITPIX` update the
state, `END` sets `headerComplete` (returned as the `Bool`) and breaks. -/
def processCards (st : HeaderSt) : List (List Nat) → Except ParseErr (HeaderSt × Bool)
  | [] => .ok (st, false)
  | card :: rest =>
    if bytesStartWith (asciiOf "NAXIS1") card then do
      let v ← cardValue card
      processCards { st with width := v } rest
    else if bytesStartWith (asciiOf "NAXIS2") card then do
      let v ← cardValue card
      processCards { st with height := v } rest
    else if bytesStartWith (asciiOf "BITPIX") card then do
      let v ← cardValue card
      processCards { st with bitpix := v } rest
    else if bytesStartWith (asciiOf "END") card then
      .ok (st, true)
    else
      processCards st rest

/-- The `while (!headerComplete && offset < byteLength)` block loop, over
the buffer pre-chunked into successive 2880-byte slices (the last possibly
short).  An exhausted chunk list is exactly the `offset < byteLength`
condition failing; a short chunk is exactly the `RangeError` of
`new Uint8Array(arrayBuffer, offset, 2880)`.  Returns the state and the
offset just past the last block read (the payload start). -/
def scanHeaderBlocks (st : HeaderSt) (offset : Nat) :
    List (List Nat) → Except ParseErr (HeaderSt × Nat)
  | [] => .ok (st, offset)
  | b :: bs =>
    if (b.drop 2879).isEmpty then .error .truncatedHeader
    else do
      let (st2, complete) ← processCards st (matchCards b)
      if complete then .ok (st2, offset + 2880)
      else scanHeaderBlocks st2 (offset + 2880) bs

/-- The whole header scan, starting from offset 0 with all variables 0. -/
def scanHeader (buf : List Nat) : Except ParseErr (HeaderSt × Nat) :=
  scanHeaderBlocks ⟨some 0, some 0, some 0⟩ 0 (chunksOf 2880 buf)

/- ## Payload decode -/

/-- Big-endian accumulation of a byte list into an unsigned integer,
as read by the `DataView` getters. -/
def beBits (l : List Nat) : Nat := l.foldl (fun a b => a * 256 + b) 0

/-- Read `n` bytes starting at index `i`; a read past the end of the
buffer is the `RangeError` a `DataView` getter throws. -/
def readBytes (buf : List Nat) (i n : Nat) : Except ParseErr (List Nat) :=
  if (buf.drop (i + n - 1)).isEmpty then .error .truncatedPayload
  else .ok ((buf.drop i).take n)

/-- Value of an IEEE754 binary32 bit pattern, exactly. -/
def decodeF32 (bits : Nat) : JsNum :=
  let s : Nat := bits / 2 ^ 31
  let e : Nat := bits / 2 ^ 23 % 2 ^ 8
  let f : Nat := bits % 2 ^ 23
  if e = 255 then
    if f = 0 then (if s = 1 then .negInf else .posInf) else .nan
  else
    let mag : ℚ :=
      if e = 0 then (f : ℚ) / ((2 ^ 149 : ℕ) : ℚ)
      else ((2 ^ 23 + f : ℕ) : ℚ) * ((2 ^ e : ℕ) : ℚ) / ((2 ^ 150 : ℕ) : ℚ)
    .num (if s = 1 then -mag else mag)

/-- Value of an IEEE754 binary64 bit pattern, exactly. -/
def decodeF64 (bits : Nat) : JsNum :=
  let s : Nat := bits / 2 ^ 63
  let e : Nat := bits / 2 ^ 52 % 2 ^ 11
  let f : Nat := bits % 2 ^ 52
  if e = 2047 then
    if f = 0 then (if s = 1 then .negInf else .posInf) else .nan
  else
    let mag : ℚ :=
      if e = 0 then (f : ℚ) / ((2 ^ 1074 : ℕ) : ℚ)
      else ((2 ^ 52 + f : ℕ) : ℚ) * ((2 ^ e : ℕ) : ℚ) / ((2 ^ 1075 : ℕ) : ℚ)
    .num (if s = 1 then -mag else mag)

/-- Two's-complement reinterpretation of a `w`-bit unsigned value. -/
def toSigned (w v : Nat) : Int :=
  if v < 2 ^ (w - 1) then (v : ℤ) else (v : ℤ) - 2 ^ w

/-- The pixel index `offset + (y*width + x) * bytesPerPixel` followed by the `ToIndex`
conversion a `DataView` getter applies: `bytesPerPixel = abs(bitpix)/8` is a
float, a fractional index is truncated, and a `NaN` `bitpix` (unparsable
`BITPIX` card) makes the whole product `NaN`, which `ToIndex` maps to 0. -/
def pixelIndex (offset : Nat) (bitpix : Option Int) (idx : Nat) : Nat :=
  match bitpix with
  | none => 0
  | some b => offset + idx * b.natAbs / 8

/-- One sample read, dispatching on `bitpix` exactly as the if/else chain
does: `-32` → `getFloat32`, `-64` → `getFloat64`, `16` → `getInt16`,
`32` → `getInt32`, anything else (including `NaN`) → `getUint8`.  All
reads are big-endian (`littleEndian = false`). -/
def decodeSample (buf : List Nat) (bitpix : Option Int) (i : Nat) :
    Except ParseErr JsNum :=
  if bitpix = some (-32) then do
    let bs ← readBytes buf i 4
    .ok (decodeF32 (beBits bs))
  else if bitpix = some (-64) then do
    let bs ← readBytes buf i 8
    .ok (decodeF64 (beBits bs))
  else if bitpix = some 16 then do
    let bs ← readBytes buf i 2
    .ok (.num ((toSigned 16 (beBits bs) : ℤ) : ℚ))
  else if bitpix = some 32 then do
    let bs ← readBytes buf i 4
    .ok (.num ((toSigned 32 (beBits bs) : ℤ) : ℚ))
  else do
    let bs ← readBytes buf i 1
    .ok (.num ((beBits bs : ℕ) : ℚ))

/-- Body of the inner `x` loop: read one sample, coerce non-finite values
to 0, push it onto the row and update the running min/max. -/
def stepPixel (buf : List Nat) (offset : Nat) (bitpix : Option Int) (w y : Nat)
    (st : List ℚ × JsNum × JsNum) (x : Nat) :
    Except ParseErr (List ℚ × JsNum × JsNum) := do
  let raw ← decodeSample buf bitpix (pixelIndex offset bitpix (y * w + x))
  let v : ℚ := raw.finify
  let (row, mn, mx) := st
  .ok (row ++ [v],
       (if JsNum.ltb (.num v) mn then .num v else mn),
       (if JsNum.ltb mx (.num v) then .num v else mx))

/-- Body of the outer `y` loop: build one row left to right and push it. -/
def stepRow (buf : List Nat) (offset : Nat) (bitpix : Option Int) (w : Nat)
    (st : List (List ℚ) × JsNum × JsNum) (y : Nat) :
    Except ParseErr (List (List ℚ) × JsNum × JsNum) := do
  let (rows, mn, mx) := st
  let (row, mn2, mx2) ←
    (List.range w).foldlM (stepPixel buf offset bitpix w y) ([], mn, mx)
  .ok (rows ++ [row], mn2, mx2)

/-- JavaScript truthiness test for the `if (!width || !height)` dimension
check: `0` and `NaN` are falsy. -/
def dimFalsy (v : Option Int) : Bool :=
  match v with
  | none => true
  | some n => n = 0

/-- Body of `parseFITS` up to the `try/catch`: header scan, dimension check, then
the row-major payload decode with running min/max (starting at `Infinity`
and `-Infinity`).  A negative dimension passes the falsiness check and
simply yields no loop iterations, exactly as a `for (let y = 0; y < height;
y++)` loop would. -/
def parseFITSCore (buf : List Nat) : Except ParseErr FITSData := do
  let (st, offset) ← scanHeader buf
  if dimFalsy st.width || dimFalsy st.height then
    .error .missingDimension
  else do
    let w := (st.width.getD 0)
    let h := (st.height.getD 0)
    let (rows, mn, mx) ←
      (List.range h.toNat).foldlM (stepRow buf offset st.bitpix w.toNat)
        ([], .posInf, .negInf)
    .ok ⟨rows, w, h, mn, mx⟩

/-- Function `parseFITS` as seen by its caller: the `try/catch` turns every failure
into `null`, modelled as `none`. -/
def parseFITS (buf : List Nat) : Option FITSData :=
  (parseFITSCore buf).toOption

/- ## ColorRamp: colorMapping.ts -/

/-- CPU colormap `getColorForValue`: five-band piecewise-linear ramp with
breakpoints 0.4, 0.48, 0.52, 0.6; `Math.floor` is `Int.floor`.  JavaScript
float arithmetic is idealised as exact rational arithmetic. -/
def getColorForValue (normalized : ℚ) : ℤ × ℤ × ℤ :=
  if normalized < 0.4 then
    let t := normalized / 0.4
    (⌊100 + t * 155⌋, ⌊t * 200⌋, 0)
  else if normalized < 0.48 then
    let t := (normalized - 0.4) / 0.08
    (⌊255 - t * 55⌋, ⌊200 - t * 50⌋, ⌊t * 150⌋)
  else if normalized < 0.52 then
    (150, 150, 150)
  else if normalized < 0.6 then
    let t := (normalized - 0.52) / 0.08
    (⌊150 - t * 150⌋, ⌊150 + t * 105⌋, ⌊150 - t * 50⌋)
  else
    let t := (normalized - 0.6) / 0.4
    (0, ⌊255 - t * 255⌋, ⌊100 + t * 155⌋)

/-- The GLSL `getColorForValue` emitted by `getColorShaderCode`: the same
five bands, but each channel is the unfloored linear value divided by 255
(GLSL floats, no `floor` call anywhere in the shader). -/
def getColorForValueGLSL (normalized : ℚ) : ℚ × ℚ × ℚ :=
  if normalized < 0.4 then
    let t := normalized / 0.4
    ((100 + t * 155) / 255, (t * 200) / 255, 0)
  else if normalized < 0.48 then
    let t := (normalized - 0.4) / 0.08
    ((255 - t * 55) / 255, (200 - t * 50) / 255, (t * 150) / 255)
  else if normalized < 0.52 then
    (150 / 255, 150 / 255, 150 / 255)
  else if normalized < 0.6 then
    let t := (normalized - 0.52) / 0.08
    ((150 - t * 150) / 255, (150 + t * 105) / 255, (150 - t * 50) / 255)
  else
    let t := (normalized - 0.6) / 0.4
    (0, (255 - t * 255) / 255, (100 + t * 155) / 255)

/- ## FieldNormalizer: textureCreation.ts `createDataTexture` -/

/-- The data array built by `createDataTexture` (flattened row-major, one
normalized sample per pixel; the Float32Array store is idealised as exact).
Bounds come from the caller when `useFixed` and from the grid's own
`min`/`max` otherwise; each sample is clamped with `Math.max(min,
Math.min(max, value))` and normalized by `(clamped - min) / range` in
JavaScript float semantics (`JsNum`), so a degenerate range produces `0/0`.
An out-of-range `data[y][x]` access yields `undefined`, which behaves as
`NaN`. -/
def createDataTextureArray (fitsData : FITSData) (useFixed : Bool)
    (minVal maxVal : JsNum) : List JsNum :=
  let mn := if useFixed then minVal else fitsData.min
  let mx := if useFixed then maxVal else fitsData.max
  let range := mx.sub mn
  (List.range fitsData.height.toNat).flatMap (fun y =>
    (List.range fitsData.width.toNat).map (fun x =>
      let value : JsNum :=
        match (fitsData.data.get? y).bind (fun row => row.get? x) with
        | some q => .num q
        | none => .nan
      let clamped := JsNum.jmax mn (JsNum.jmin mx value)
      (clamped.sub mn).div range))

/- ## TransitionController: useThreeScene.ts `animate` + transition shader -/

/-- Easing function `easeInOutCubic` from useThreeScene.ts:
`t < 0.5 ? 4*t*t*t : 1 - Math.pow(-2*t+2, 3)/2`. -/
def easeInOutCubic (t : ℚ) : ℚ :=
  if t < 0.5 then 4 * t * t * t else 1 - (-2 * t + 2) ^ (3 : ℕ) / 2

/-- The GLSL `mix(x, y, a) = x*(1-a) + y*a` used by the transition
fragment shader. -/
def glslMix (x y a : ℚ) : ℚ := x * (1 - a) + y * a

/-- One fragment of `createTransitionShaderMaterial`'s fragment shader:
the old and new data values are mixed first, and only the interpolated
value is colorized. -/
def transitionFragment (oldValue newValue mixFactor : ℚ) : ℚ × ℚ × ℚ :=
  getColorForValueGLSL (glslMix oldValue newValue mixFactor)

/-- The full frame the transition shader displays for two normalized grids
(flattened, same length) at a given mix factor. -/
def transitionFrame3D (oldVals newVals : List ℚ) (mixFactor : ℚ) : List (ℚ × ℚ × ℚ) :=
  List.zipWith (fun o n => transitionFragment o n mixFactor) oldVals newVals

/-- The resources released when a texture transition completes:
`sphere.material.dispose()` (the transition shader material) and
`oldDataTexture.dispose()` (the previous grid's texture). -/
inductive Resource where
  | transitionMaterial : Resource
  | previousTexture : Resource
deriving DecidableEq

/-- Texture-transition controller state: `Idle` (a plain material showing
one grid) or `Active` (transition material mixing `previous` into `next`,
with `transitionRef` carrying `startTime` and `duration`). -/
inductive TState where
  | idle (current : List ℚ) : TState
  | active (startTime duration : ℚ) (previous next : List ℚ) : TState
deriving DecidableEq

/-- One `animate` frame of the texture transition in useThreeScene.ts:
`elapsed = now - startTime`, `rawProgress = Math.min(elapsed/duration, 1)`,
`mixFactor = easeInOutCubic(rawProgress)`; the shader then displays the
sample-wise mix of the two grids.  When `rawProgress >= 1` the controller
swaps in a plain material holding `next`, disposes the transition material
and the old texture, and clears `isTransitioning`.  Returns (new state,
displayed grid, resources disposed this frame).  `duration` is a positive
number in the app (the transition is started with a fixed positive
duration). -/
def tick : TState → ℚ → TState × List ℚ × List Resource
  | .idle current, _ => (.idle current, current, [])
  | .active startTime duration previous next, now =>
    let elapsed := now - startTime
    let rawProgress := min (elapsed / duration) 1
    let progress := easeInOutCubic rawProgress
    let frame := List.zipWith (fun o n => glslMix o n progress) previous next
    if 1 ≤ rawProgress then
      (.idle next, frame, [.transitionMaterial, .previousTexture])
    else
      (.active startTime duration previous next, frame, [])

/- ## 2-D map transition: GlobeViewer.tsx `animate2DTransition` -/

/-- A `Uint8ClampedArray` element store (`ToUint8Clamp`): clamp to `[0,255]`
and round to the nearest integer, ties to even. -/
def toUint8Clamp (q : ℚ) : ℤ :=
  if q ≤ 0 then 0
  else if 255 ≤ q then 255
  else
    let f := ⌊q⌋
    if q - f < 1 / 2 then f
    else if 1 / 2 < q - f then f + 1
    else if 2 ∣ f then f else f + 1

/-- The per-pixel colorization of the 2-D map (`createMagneticFieldTexture`
loop body: `getColorForValue(normalized)` written to the RGB channels; the
alpha channel is the constant 255 and is omitted here). -/
def colorizePixels (vals : List ℚ) : List (ℤ × ℤ × ℤ) :=
  vals.map getColorForValue

/-- One frame of `animate2DTransition`: each RGB channel of the output is
`old + (new - old) * progress` computed from the two *already colorized*
`ImageData` buffers and stored through `Uint8ClampedArray` clamping. -/
def animate2DFrame (oldData newData : List (ℤ × ℤ × ℤ)) (progress : ℚ) :
    List (ℤ × ℤ × ℤ) :=
  List.zipWith (fun o n =>
    (toUint8Clamp ((o.1 : ℚ) + ((n.1 : ℚ) - (o.1 : ℚ)) * progress),
     toUint8Clamp ((o.2.1 : ℚ) + ((n.2.1 : ℚ) - (o.2.1 : ℚ)) * progress),
     toUint8Clamp ((o.2.2 : ℚ) + ((n.2.2 : ℚ) - (o.2.2 : ℚ)) * progress)))
    oldData newData

/- ## Field-line dataset: useThreeScene.ts rendering loop -/

/-- A coronal field line as delivered in the dataset JSON. -/
structure FieldLine where
  points : List (ℚ × ℚ × ℚ)
  strengths : List ℚ
  polarity : String
deriving DecidableEq

/-- The field lines actually rendered by the
`coronalData.fieldLines.forEach` loop in useThreeScene.ts: a line with
`points.length < 2` is skipped (`return`), every other line is added
unchanged (it is stored in the rendered object's `userData`); no other
validation is performed. -/
def renderedFieldLines (fieldLines : List FieldLine) : List FieldLine :=
  fieldLines.filter (fun l => !(decide (l.points.length < 2)))

/- ## Concrete test buffers -/

/-- An 80-byte header card: ASCII text padded with spaces. -/
def mkCard (s : String) : List Nat :=
  asciiOf s ++ List.replicate (80 - s.length) 32

/-- A 2880-byte header block: the given cards followed by space padding. -/
def mkBlock (cards : List (List Nat)) : List Nat :=
  let body := cards.flatMap id
  body ++ List.replicate (2880 - body.length) 32

/-- The synthetic round-trip buffer of the spec: a one-block header
declaring `NAXIS1=2`, `NAXIS2=2`, `BITPIX=-32`, terminated by `END`,
followed by the big-endian IEEE754 binary32 encodings of
`-100`, `0`, `50`, `100`. -/
def bufRoundTrip : List Nat :=
  mkBlock [mkCard "NAXIS1  =                    2",
           mkCard "NAXIS2  =                    2",
           mkCard "BITPIX  =                  -32",
           mkCard "END"] ++
  [194, 200, 0, 0,  0, 0, 0, 0,  66, 72, 0, 0,  66, 200, 0, 0]

/-- The grid the round-trip buffer must decode to. -/
def gridRoundTrip : FITSData :=
  ⟨[[-100, 0], [50, 100]], 2, 2, .num (-100), .num 100⟩

/-- A buffer whose header declares the unsupported encoding `BITPIX=64`
(64-bit integers are not in the supported set), with one 8-byte sample. -/
def bufBitpix64 : List Nat :=
  mkBlock [mkCard "NAXIS1  =                    1",
           mkCard "NAXIS2  =                    1",
           mkCard "BITPIX  =                   64",
           mkCard "END"] ++
  [7, 1, 2, 3, 4, 5, 6, 8]

/-- A buffer whose header declares the negative dimension `NAXIS2=-1`. -/
def bufNegDim : List Nat :=
  mkBlock [mkCard "NAXIS1  =                    2",
           mkCard "NAXIS2  =                   -1",
           mkCard "BITPIX  =                    8",
           mkCard "END"]

/-- A 1×1 grid holding the single sample `5`, so its observed range is
degenerate (`min = max = 5`). -/
def gridFlat : FITSData := ⟨[[5]], 1, 1, .num 5, .num 5⟩

/-- A field line whose `strengths` array (length 1) does not match its
`points` array (length 2). -/
def mismatchLine : FieldLine := ⟨[(0, 0, 0), (1, 0, 0)], [1], "open"⟩

/- ## C1 — synthetic round-trip -/

/-- C1: decoding the synthetic buffer (`NAXIS1=2`, `NAXIS2=2`,
`BITPIX=-32`, payload `[-100, 0, 50, 100]` as big-endian binary32) yields
a 2×2 grid holding `[-100, 0, 50, 100]` in row-major order with observed
min `-100` and observed max `100`. -/
theorem fits_roundtrip_synthetic :
    parseFITS bufRoundTrip = some gridRoundTrip ∧
    gridRoundTrip.data.flatten = [-100, 0, 50, 100] := by
  decide

/- ## C10 — every failure collapses to null -/

/-- C10: `parseFITS` is total at its interface: the `try/catch` maps every
failure path (truncated header block, malformed card, missing dimensions,
truncated payload) to the single value `null`, and every success to the
decoded grid, so the distinct error conditions are indistinguishable to
the caller. -/
theorem parseFITS_error_to_null (buf : List Nat) :
    (∀ e, parseFITSCore buf = .error e → parseFITS buf = none) ∧
    (∀ d, parseFITSCore buf = .ok d → parseFITS buf = some d) := by
  constructor
  · intro e h
    simp [parseFITS, h, Except.toOption]
  · intro d h
    simp [parseFITS, h, Except.toOption]

/-- Witness for C10: the empty buffer fails (missing dimensions) and
`parseFITS` returns `null` on it. -/
theorem parseFITS_error_to_null_witness : parseFITS [] = none :=
  (parseFITS_error_to_null []).1 .missingDimension (by decide)

/- ## C9 — field-line filtering, no strengths validation -/

/-- C9 counterexample: a field line whose `strengths` length differs from
its `points` length is rendered unchanged — no `LineShapeMismatch` error
exists anywhere in the pipeline, contradicting the claim that such a line
is rejected. -/
theorem mismatched_line_accepted :
    renderedFieldLines [mismatchLine] = [mismatchLine] ∧
    mismatchLine.strengths.length ≠ mismatchLine.points.length := by
  decide

/-- C9 amended: the rendering loop keeps exactly the field lines with at
least 2 points (in order, unchanged); no `strengths`/`points` length
validation is performed. -/
theorem renderedFieldLines_eq_filter (fieldLines : List FieldLine) :
    renderedFieldLines fieldLines =
      fieldLines.filter (fun l => decide (2 ≤ l.points.length)) := by
  unfold renderedFieldLines
  apply List.filter_congr
  intro l _
  rw [← decide_not]
  exact decide_eq_decide.mpr Nat.not_lt

/- ## C5 — unsupported BITPIX is not rejected -/

/-- C5 counterexample: a buffer declaring `BITPIX=64` — outside the
supported set `{8, 16, 32, -32, -64}` — is not rejected: decoding
succeeds and the single sample is read through the unsigned-byte fallback
branch (the first payload byte, `7`). -/
theorem unsupported_bitpix_not_rejected :
    scanHeader bufBitpix64 = .ok (⟨some 1, some 1, some 64⟩, 2880) ∧
    parseFITS bufBitpix64 = some ⟨[[7]], 1, 1, .num 7, .num 7⟩ := by
  decide

/-- C5 amended: the decoder has no `UnsupportedEncoding` failure; any
`BITPIX` other than `16`, `32`, `-32`, `-64` (including every unsupported
value and the `NaN` of an unparsable card) falls through to the
`getUint8` branch. -/
theorem decodeSample_default_uint8 (buf : List Nat) (bitpix : Option Int) (i : Nat)
    (h16 : bitpix ≠ some 16) (h32 : bitpix ≠ some 32)
    (hm32 : bitpix ≠ some (-32)) (hm64 : bitpix ≠ some (-64)) :
    decodeSample buf bitpix i =
      (readBytes buf i 1).map (fun bs => JsNum.num ((beBits bs : ℕ) : ℚ)) := by
  unfold decodeSample
  rw [if_neg hm32, if_neg hm64, if_neg h16, if_neg h32]
  cases readBytes buf i 1 with
  | error e => rfl
  | ok bs => rfl

/-- Witness for the C5 amended theorem at `BITPIX = 64` on a one-byte
buffer. -/
theorem decodeSample_default_uint8_witness :
    decodeSample [9] (some 64) 0 =
      (readBytes [9] 0 1).map (fun bs => JsNum.num ((beBits bs : ℕ) : ℚ)) :=
  decodeSample_default_uint8 [9] (some 64) 0 (by decide) (by decide) (by decide) (by decide)

/- ## C6 — dimension check accepts negative dimensions -/

/-- C6 counterexample: a header with `NAXIS2 = -1` is *not* rejected by
the `if (!width || !height)` check (only `0` and `NaN` are falsy):
decoding succeeds and returns a grid with `height = -1`, an empty data
array, and the untouched `Infinity`/`-Infinity` min/max sentinels. -/
theorem negative_dimension_accepted :
    parseFITS bufNegDim = some ⟨[], 2, -1, .posInf, .negInf⟩ := by
  decide

/-- Reduction of `Except.ok` through `bind`. -/
theorem except_ok_bind {α β : Type} (a : α) (f : α → Except ParseErr β) :
    (Except.ok a >>= f) = f a := rfl

/-- An errored `bind` comes from an errored action or an errored
continuation. -/
theorem except_bind_error {α β : Type} {m : Except ParseErr α}
    {f : α → Except ParseErr β} {e : ParseErr} (h : (m >>= f) = .error e) :
    m = .error e ∨ ∃ a, m = .ok a ∧ f a = .error e := by
  cases m with
  | error e2 =>
    left
    have h2 : (Except.error e2 : Except ParseErr β) = Except.error e := by
      rw [show (Except.error e2 >>= f : Except ParseErr β) = Except.error e2 from rfl] at h
      exact h
    rw [Except.error.inj h2]
  | ok a =>
    right
    exact ⟨a, rfl, h⟩

/-- Reads via `readBytes` can only fail with `truncatedPayload`. -/
theorem readBytes_error_truncated (buf : List Nat) (i n : Nat) (e : ParseErr)
    (h : readBytes buf i n = .error e) : e = .truncatedPayload := by
  unfold readBytes at h
  split at h
  · exact (Except.error.inj h).symm
  · exact Except.noConfusion h

/-- Reads via `decodeSample` can only fail with `truncatedPayload`. -/
theorem decodeSample_error_truncated (buf : List Nat) (bitpix : Option Int)
    (i : Nat) (e : ParseErr) (h : decodeSample buf bitpix i = .error e) :
    e = .truncatedPayload := by
  unfold decodeSample at h
  split_ifs at h <;>
  · rcases except_bind_error h with h1 | ⟨a, _, h2⟩
    · exact readBytes_error_truncated _ _ _ _ h1
    · exact Except.noConfusion h2

/-- Loop body `stepPixel` can only fail with `truncatedPayload`. -/
theorem stepPixel_error_truncated (buf : List Nat) (offset : Nat)
    (bitpix : Option Int) (w y : Nat) (st : List ℚ × JsNum × JsNum) (x : Nat)
    (e : ParseErr) (h : stepPixel buf offset bitpix w y st x = .error e) :
    e = .truncatedPayload := by
  obtain ⟨row, mn, mx⟩ := st
  unfold stepPixel at h
  rcases except_bind_error h with h1 | ⟨a, _, h2⟩
  · exact decodeSample_error_truncated _ _ _ _ h1
  · exact Except.noConfusion h2

/-- A `foldlM` over an error-monotone step can only fail with
`truncatedPayload`. -/
theorem foldlM_error_truncated {α β : Type} (f : β → α → Except ParseErr β)
    (hf : ∀ b a e, f b a = .error e → e = .truncatedPayload) :
    ∀ (l : List α) (b : β) (e : ParseErr),
      List.foldlM f b l = .error e → e = .truncatedPayload := by
  intro l
  induction l with
  | nil =>
    intro b e h
    rw [List.foldlM_nil] at h
    exact Except.noConfusion h
  | cons x xs ih =>
    intro b e h
    rw [List.foldlM_cons] at h
    rcases except_bind_error h with h1 | ⟨a, _, h2⟩
    · exact hf _ _ _ h1
    · exact ih _ _ h2

/-- Loop body `stepRow` can only fail with `truncatedPayload`. -/
theorem stepRow_error_truncated (buf : List Nat) (offset : Nat)
    (bitpix : Option Int) (w : Nat) (st : List (List ℚ) × JsNum × JsNum)
    (y : Nat) (e : ParseErr) (h : stepRow buf offset bitpix w st y = .error e) :
    e = .truncatedPayload := by
  obtain ⟨rows, mn, mx⟩ := st
  unfold stepRow at h
  rcases except_bind_error h with h1 | ⟨a, _, h2⟩
  · exact foldlM_error_truncated _ (fun b a e2 hh => stepPixel_error_truncated _ _ _ _ _ _ _ _ hh) _ _ _ h1
  · obtain ⟨row, mn2, mx2⟩ := a
    exact Except.noConfusion h2

/-- C6 amended: relative to the header scan's outcome, decoding fails with
`missingDimension` exactly when `NAXIS1` or `NAXIS2` is missing,
unparsable (`NaN`), or zero — the JavaScript-falsy values of
`if (!width || !height)`.  In particular a *negative* dimension passes the
check, contradicting the claim that non-positive dimensions are rejected. -/
theorem parseFITS_missingDimension_iff (buf : List Nat) (st : HeaderSt)
    (off : Nat) (hscan : scanHeader buf = .ok (st, off)) :
    (parseFITSCore buf = .error .missingDimension ↔
      (dimFalsy st.width || dimFalsy st.height) = true) := by
  unfold parseFITSCore
  rw [hscan, except_ok_bind]
  by_cases hcond : (dimFalsy st.width || dimFalsy st.height) = true
  · simp [hcond]
  · simp only [hcond, Bool.false_eq_true, if_false, iff_false]
    intro h
    rcases except_bind_error h with h1 | ⟨a, _, h2⟩
    · have := foldlM_error_truncated _
        (fun b a e2 hh => stepRow_error_truncated _ _ _ _ _ _ _ hh) _ _ _ h1
      exact ParseErr.noConfusion this
    · obtain ⟨rows, mn, mx⟩ := a
      exact Except.noConfusion h2

/-- Witness for the C6 amended theorem on the `NAXIS2 = -1` buffer: both
scanned dimensions are JavaScript-truthy, so no `missingDimension` error
is raised. -/
theorem parseFITS_missingDimension_iff_witness :
    (parseFITSCore bufNegDim = .error .missingDimension ↔
      (dimFalsy (HeaderSt.mk (some 2) (some (-1)) (some 8)).width ||
       dimFalsy (HeaderSt.mk (some 2) (some (-1)) (some 8)).height) = true) :=
  parseFITS_missingDimension_iff bufNegDim ⟨some 2, some (-1), some 8⟩ 2880 (by decide)

/- ## C2 — degenerate range produces NaN, not 0.5 -/

/-- C2 counterexample: on a flat 1×1 grid (`min = max = 5`) the
normalizer emits `NaN` (the `0/0` of `(clamped - min) / range`), not the
claimed constant `0.5`. -/
theorem normalizer_degenerate_nan_cex :
    createDataTextureArray gridFlat false (.num 0) (.num 0) = [JsNum.nan] ∧
    createDataTextureArray gridFlat false (.num 0) (.num 0) ≠ [JsNum.num (1/2)] := by
  decide

/-- With equal finite bounds, one normalized sample is always `NaN`:
clamping pins any value to the bound (or propagates `NaN`), and the
division is `0/0`. -/
theorem normalize_sample_degenerate (m : ℚ) (v : JsNum) :
    (JsNum.sub (JsNum.jmax (.num m) (JsNum.jmin (.num m) v)) (.num m)).div
      (JsNum.sub (.num m) (.num m)) = .nan := by
  cases v with
  | nan => simp [JsNum.jmin, JsNum.jmax, JsNum.sub, JsNum.div]
  | posInf =>
    have : min m (m : ℚ) = m := min_self m
    simp [JsNum.jmin, JsNum.jmax, JsNum.sub, JsNum.div]
  | negInf => simp [JsNum.jmin, JsNum.jmax, JsNum.sub, JsNum.div]
  | num q =>
    have hmax : max m (min m q) = m := max_eq_left (min_le_left _ _)
    simp [JsNum.jmin, JsNum.jmax, JsNum.sub, JsNum.div, hmax]

/-- A constant-valued `flatMap` of `map`s over ranges is a `replicate`. -/
theorem flatMap_const_replicate {β : Type} (w : Nat) (c : β) :
    ∀ l : List Nat, (l.flatMap fun _ => List.replicate w c) =
      List.replicate (l.length * w) c := by
  intro l
  induction l with
  | nil => simp
  | cons x xs ih =>
    simp only [List.flatMap_cons, ih, List.length_cons]
    rw [Nat.succ_mul, Nat.add_comm, ← List.replicate_add]

/-- C2 amended: whenever the resolved bounds are a degenerate range
(`max == min`, both the same finite number), *every* sample the
normalizer writes is `NaN`; the claimed `0.5` fallback does not exist in
the code. -/
theorem createDataTextureArray_degenerate (fitsData : FITSData)
    (useFixed : Bool) (minVal maxVal : JsNum) (m : ℚ)
    (hmin : (if useFixed then minVal else fitsData.min) = .num m)
    (hmax : (if useFixed then maxVal else fitsData.max) = .num m) :
    createDataTextureArray fitsData useFixed minVal maxVal =
      List.replicate (fitsData.height.toNat * fitsData.width.toNat) JsNum.nan := by
  unfold createDataTextureArray
  rw [hmin, hmax]
  have hpoint : ∀ y x : Nat,
      (JsNum.sub (JsNum.jmax (.num m) (JsNum.jmin (.num m)
          (match (fitsData.data.get? y).bind (fun row => row.get? x) with
           | some q => JsNum.num q
           | none => JsNum.nan))) (.num m)).div
        (JsNum.sub (.num m) (.num m)) = JsNum.nan :=
    fun y x => normalize_sample_degenerate m _
  simp only [hpoint]
  have hmap : (List.range fitsData.width.toNat).map (fun _ : Nat => JsNum.nan) =
      List.replicate fitsData.width.toNat JsNum.nan := by
    rw [List.map_const']
    simp
  simp only [hmap]
  rw [flatMap_const_replicate]
  simp

/-- Witness for the C2 amended theorem: the flat 1×1 grid normalizes to a
single `NaN`. -/
theorem createDataTextureArray_degenerate_witness :
    createDataTextureArray gridFlat false (.num 0) (.num 0) =
      List.replicate (gridFlat.height.toNat * gridFlat.width.toNat) JsNum.nan :=
  createDataTextureArray_degenerate gridFlat false (.num 0) (.num 0) 5 rfl rfl

/- ## C7 — CPU and GLSL colormaps do not agree exactly -/

/-- The CPU colormap's output viewed on the shader's 0–255 scale. -/
def cpuColorScaled (t : ℚ) : ℚ × ℚ × ℚ :=
  (((getColorForValue t).1 : ℚ), ((getColorForValue t).2.1 : ℚ),
   ((getColorForValue t).2.2 : ℚ))

/-- The GLSL colormap's output rescaled from `[0,1]` to the 0–255 scale. -/
def glslColorScaled (t : ℚ) : ℚ × ℚ × ℚ :=
  (255 * (getColorForValueGLSL t).1, 255 * (getColorForValueGLSL t).2.1,
   255 * (getColorForValueGLSL t).2.2)

/-- C7 counterexample: at `t = 1/4 ∈ [0,1]` the CPU path floors
(`r = 177`) while the shader path keeps the fractional value
(`r = 177.5/255`), so the two colormaps do not return the same triplet. -/
theorem colormap_paths_disagree :
    (0 : ℚ) ≤ 1/4 ∧ (1/4 : ℚ) ≤ 1 ∧ cpuColorScaled (1/4) ≠ glslColorScaled (1/4) := by
  decide

/-- C7 amended: the two colormaps agree exactly up to the CPU path's
`Math.floor`: on every input, the CPU triplet is the componentwise floor
of the shader triplet rescaled by 255 (so they agree within one unit, and
exactly on integer-valued channels). -/
theorem getColorForValue_eq_floor_glsl (t : ℚ) :
    getColorForValue t =
      (⌊255 * (getColorForValueGLSL t).1⌋, ⌊255 * (getColorForValueGLSL t).2.1⌋,
       ⌊255 * (getColorForValueGLSL t).2.2⌋) := by
  have h255 : ∀ q : ℚ, 255 * (q / 255) = q := fun q => by field_simp
  unfold getColorForValue getColorForValueGLSL
  split_ifs <;> simp only [h255, mul_zero] <;> norm_num

/- ## C4 — interpolation domain: data on the 3-D path, colors on the 2-D path -/

/-- C4 counterexample: the 2-D canvas transition interpolates the
*already colorized* pixel channels.  With previous value `0` and next
value `1` at progress `1/2`, the 2-D frame's pixel is the channel-wise
average `(50, 0, 128)` of `(100,0,0)` and `(0,0,255)`, while colorizing
the interpolated data value `1/2` gives the gray `(150,150,150)` — so the
claim that interpolation always happens on raw data before colorization
is false on the 2-D render path. -/
theorem transition2D_interpolates_colors_cex :
    animate2DFrame (colorizePixels [0]) (colorizePixels [1]) (1/2) ≠
      colorizePixels (List.zipWith (fun o n => o + (n - o) * (1/2)) [0] [1]) := by
  decide

/-- C4 amended: on the 3-D shader path the claim holds — the transition
fragment shader mixes the raw data values first and colorizes only the
interpolated value, so the displayed frame is exactly the colorization of
the sample-wise lerp `previous[i] + (next[i] - previous[i]) * mixFactor`. -/
theorem transitionFrame3D_data_lerp (oldVals newVals : List ℚ) (mixFactor : ℚ) :
    transitionFrame3D oldVals newVals mixFactor =
      (List.zipWith (fun o n => o + (n - o) * mixFactor) oldVals newVals).map
        getColorForValueGLSL := by
  induction oldVals generalizing newVals with
  | nil => simp [transitionFrame3D]
  | cons a as ih =>
    cases newVals with
    | nil => simp [transitionFrame3D]
    | cons b bs =>
      have hstep : transitionFrame3D (a :: as) (b :: bs) mixFactor =
          transitionFragment a b mixFactor :: transitionFrame3D as bs mixFactor := rfl
      rw [hstep, ih bs]
      simp only [List.zipWith_cons_cons, List.map_cons]
      congr 1
      unfold transitionFragment glslMix
      congr 1
      ring

/- ## C8 — transition endpoints and disposal -/

/-- C8: for a transition with positive duration over same-size grids,
the tick at `elapsed = 0` displays exactly `previous` (and disposes
nothing), any tick with `elapsed ≥ duration` collapses the controller to
`Idle` holding `next`, displays exactly `next`, and disposes the previous
texture and the scratch transition material (each exactly once); ticks
before completion dispose nothing, and once `Idle`, no further tick
disposes anything. -/
theorem tick_endpoints (startTime duration : ℚ) (previous next : List ℚ)
    (hdur : 0 < duration) (hlen : previous.length = next.length) :
    tick (.active startTime duration previous next) startTime =
      (.active startTime duration previous next, previous, []) ∧
    (∀ now, startTime + duration ≤ now →
      tick (.active startTime duration previous next) now =
        (.idle next, next, [.transitionMaterial, .previousTexture])) ∧
    (∀ now, now < startTime + duration →
      (tick (.active startTime duration previous next) now).2.2 = []) ∧
    (∀ now current, tick (.idle current) now = (.idle current, current, [])) := by
  have hmix0 : ∀ l1 l2 : List ℚ, l1.length = l2.length →
      List.zipWith (fun o n => glslMix o n (easeInOutCubic 0)) l1 l2 = l1 := by
    intro l1
    induction l1 with
    | nil => intro l2 h; simp
    | cons a as ih =>
      intro l2 h
      cases l2 with
      | nil => simp at h
      | cons b bs =>
        simp only [List.length_cons, Nat.add_right_cancel_iff] at h
        simp only [List.zipWith_cons_cons, ih bs h]
        congr 1
        unfold glslMix easeInOutCubic
        norm_num
  have hmix1 : ∀ l1 l2 : List ℚ, l1.length = l2.length →
      List.zipWith (fun o n => glslMix o n (easeInOutCubic 1)) l1 l2 = l2 := by
    intro l1
    induction l1 with
    | nil => intro l2 h; cases l2 with
      | nil => simp
      | cons b bs => simp at h
    | cons a as ih =>
      intro l2 h
      cases l2 with
      | nil => simp at h
      | cons b bs =>
        simp only [List.length_cons, Nat.add_right_cancel_iff] at h
        simp only [List.zipWith_cons_cons, ih bs h]
        congr 1
        unfold glslMix easeInOutCubic
        norm_num
  refine ⟨?_, ?_, ?_, ?_⟩
  · have h01 : min (0 : ℚ) 1 = 0 := min_eq_left (by norm_num)
    simp only [tick, sub_self, zero_div, h01]
    rw [if_neg (by norm_num : ¬ (1 : ℚ) ≤ 0)]
    rw [hmix0 previous next hlen]
  · intro now hnow
    have hone : (1 : ℚ) ≤ (now - startTime) / duration :=
      (one_le_div hdur).mpr (by linarith)
    have hminr : min ((now - startTime) / duration) 1 = 1 := min_eq_right hone
    simp only [tick, hminr]
    rw [if_pos (le_refl (1 : ℚ))]
    rw [hmix1 previous next hlen]
  · intro now hnow
    have hltone : (now - startTime) / duration < 1 :=
      (div_lt_one hdur).mpr (by linarith)
    have hminl : min ((now - startTime) / duration) 1 = (now - startTime) / duration :=
      min_eq_left (le_of_lt hltone)
    simp only [tick, hminl]
    rw [if_neg (not_le.mpr hltone)]
  · intro now current
    rfl

/-- Witness for C8 at a concrete transition (start 0, duration 2, grids
`[1,5]` and `[3,7]`). -/
theorem tick_endpoints_witness :
    tick (.active 0 2 [1, 5] [3, 7]) 0 = (.active 0 2 [1, 5] [3, 7], [1, 5], []) ∧
    tick (.active 0 2 [1, 5] [3, 7]) 2 = (.idle [3, 7], [3, 7],
      [.transitionMaterial, .previousTexture]) ∧
    (tick (.active 0 2 [1, 5] [3, 7]) 1).2.2 = [] ∧
    tick (.idle [3, 7]) 9 = (.idle [3, 7], [3, 7], []) :=
  ⟨(tick_endpoints 0 2 [1, 5] [3, 7] (by norm_num) (by decide)).1,
   (tick_endpoints 0 2 [1, 5] [3, 7] (by norm_num) (by decide)).2.1 2 (by norm_num),
   (tick_endpoints 0 2 [1, 5] [3, 7] (by norm_num) (by decide)).2.2.1 1 (by norm_num),
   (tick_endpoints 0 2 [1, 5] [3, 7] (by norm_num) (by decide)).2.2.2 9 [3, 7]⟩

/- ## C3 — colormap boundary continuity -/

/-- Two colors differ by at most one unit in each of r, g, b. -/
def colorClose1 (c d : ℤ × ℤ × ℤ) : Prop :=
  |c.1 - d.1| ≤ 1 ∧ |c.2.1 - d.2.1| ≤ 1 ∧ |c.2.2 - d.2.2| ≤ 1

/-- Inputs just below `β` map within one unit per channel of the boundary
color: some left window `(β - δ, β)` on which every color is
`colorClose1` to `getColorForValue β`. -/
def leftCloseAt (β : ℚ) : Prop :=
  ∃ δ : ℚ, 0 < δ ∧ ∀ x : ℚ, β - δ < x → x < β →
    colorClose1 (getColorForValue x) (getColorForValue β)

/-- Computing `Int.floor` from two-sided rational bounds. -/
theorem floor_eq_of (z : ℤ) (q : ℚ) (h1 : (z : ℚ) ≤ q) (h2 : q < z + 1) :
    ⌊q⌋ = z := by
  rw [Int.floor_eq_iff]
  exact ⟨h1, h2⟩

/-- On `(0.4 - 1/2000, 0.4)` the first band gives `(254, 199, 0)`. -/
theorem colorFor_win04 (x : ℚ) (h1 : 0.4 - 1/2000 < x) (h2 : x < 0.4) :
    getColorForValue x = (254, 199, 0) := by
  have h1n : (799/2000 : ℚ) < x := by norm_num at h1; linarith
  have h2n : x < (2/5 : ℚ) := by norm_num at h2; linarith
  unfold getColorForValue
  rw [if_pos h2]
  show (⌊100 + x / 0.4 * 155⌋, ⌊x / 0.4 * 200⌋, (0:ℤ)) = (254, 199, 0)
  have hr : x / (0.4:ℚ) * 155 = x * (775/2) := by
    rw [show (0.4:ℚ) = 2/5 by norm_num]
    ring
  have hg : x / (0.4:ℚ) * 200 = x * 500 := by
    rw [show (0.4:ℚ) = 2/5 by norm_num]
    ring
  rw [hr, hg]
  simp only [Prod.mk.injEq]
  refine ⟨?_, ?_, trivial⟩
  · apply floor_eq_of
    · push_cast
      nlinarith [h1n]
    · push_cast
      nlinarith [h2n]
  · apply floor_eq_of
    · push_cast
      nlinarith [h1n]
    · push_cast
      nlinarith [h2n]

/-- On `(0.48 - 1/2000, 0.48)` the second band gives `(200, 150, 149)`. -/
theorem colorFor_win048 (x : ℚ) (h1 : 0.48 - 1/2000 < x) (h2 : x < 0.48) :
    getColorForValue x = (200, 150, 149) := by
  have h1n : (959/2000 : ℚ) < x := by norm_num at h1; linarith
  have h2n : x < (12/25 : ℚ) := by norm_num at h2; linarith
  unfold getColorForValue
  rw [if_neg (by norm_num; linarith : ¬ x < (0.4:ℚ)), if_pos h2]
  show (⌊255 - (x - 0.4) / 0.08 * 55⌋, ⌊200 - (x - 0.4) / 0.08 * 50⌋,
        ⌊(x - 0.4) / 0.08 * 150⌋) = (200, 150, 149)
  have hr : 255 - (x - (0.4:ℚ)) / 0.08 * 55 = 530 - x * (1375/2) := by
    rw [show (0.4:ℚ) = 2/5 by norm_num, show (0.08:ℚ) = 2/25 by norm_num]
    ring
  have hg : 200 - (x - (0.4:ℚ)) / 0.08 * 50 = 450 - x * 625 := by
    rw [show (0.4:ℚ) = 2/5 by norm_num, show (0.08:ℚ) = 2/25 by norm_num]
    ring
  have hb : (x - (0.4:ℚ)) / 0.08 * 150 = x * 1875 - 750 := by
    rw [show (0.4:ℚ) = 2/5 by norm_num, show (0.08:ℚ) = 2/25 by norm_num]
    ring
  rw [hr, hg, hb]
  simp only [Prod.mk.injEq]
  refine ⟨?_, ?_, ?_⟩
  · apply floor_eq_of
    · push_cast
      nlinarith [h2n]
    · push_cast
      nlinarith [h1n]
  · apply floor_eq_of
    · push_cast
      nlinarith [h2n]
    · push_cast
      nlinarith [h1n]
  · apply floor_eq_of
    · push_cast
      nlinarith [h1n]
    · push_cast
      nlinarith [h2n]

/-- On `(0.52 - 1/2000, 0.52)` the gray band gives `(150, 150, 150)`. -/
theorem colorFor_win052 (x : ℚ) (h1 : 0.52 - 1/2000 < x) (h2 : x < 0.52) :
    getColorForValue x = (150, 150, 150) := by
  have h1n : (1039/2000 : ℚ) < x := by norm_num at h1; linarith
  unfold getColorForValue
  rw [if_neg (by norm_num; linarith : ¬ x < (0.4:ℚ)),
      if_neg (by norm_num; linarith : ¬ x < (0.48:ℚ)), if_pos h2]

/-- On `(0.6 - 1/2000, 0.6)` the fourth band gives `(0, 254, 100)`. -/
theorem colorFor_win06 (x : ℚ) (h1 : 0.6 - 1/2000 < x) (h2 : x < 0.6) :
    getColorForValue x = (0, 254, 100) := by
  have h1n : (1199/2000 : ℚ) < x := by norm_num at h1; linarith
  have h2n : x < (3/5 : ℚ) := by norm_num at h2; linarith
  unfold getColorForValue
  rw [if_neg (by norm_num; linarith : ¬ x < (0.4:ℚ)),
      if_neg (by norm_num; linarith : ¬ x < (0.48:ℚ)),
      if_neg (by norm_num; linarith : ¬ x < (0.52:ℚ)), if_pos h2]
  show (⌊150 - (x - 0.52) / 0.08 * 150⌋, ⌊150 + (x - 0.52) / 0.08 * 105⌋,
        ⌊150 - (x - 0.52) / 0.08 * 50⌋) = (0, 254, 100)
  have hr : 150 - (x - (0.52:ℚ)) / 0.08 * 150 = 1125 - x * 1875 := by
    rw [show (0.52:ℚ) = 13/25 by norm_num, show (0.08:ℚ) = 2/25 by norm_num]
    ring
  have hg : 150 + (x - (0.52:ℚ)) / 0.08 * 105 = x * (2625/2) - 1065/2 := by
    rw [show (0.52:ℚ) = 13/25 by norm_num, show (0.08:ℚ) = 2/25 by norm_num]
    ring
  have hb : 150 - (x - (0.52:ℚ)) / 0.08 * 50 = 475 - x * 625 := by
    rw [show (0.52:ℚ) = 13/25 by norm_num, show (0.08:ℚ) = 2/25 by norm_num]
    ring
  rw [hr, hg, hb]
  simp only [Prod.mk.injEq]
  refine ⟨?_, ?_, ?_⟩
  · apply floor_eq_of
    · push_cast
      nlinarith [h2n]
    · push_cast
      nlinarith [h1n]
  · apply floor_eq_of
    · push_cast
      nlinarith [h1n]
    · push_cast
      nlinarith [h2n]
  · apply floor_eq_of
    · push_cast
      nlinarith [h2n]
    · push_cast
      nlinarith [h1n]

/-- C3 counterexample: at the `0.48` boundary the claim fails — for every
left window there are inputs just below `0.48` whose red channel is 200
while `getColorForValue 0.48` is the gray `(150,150,150)`, a 50-unit
jump. -/
theorem colormap_boundary_claim_false :
    ¬ (leftCloseAt 0.4 ∧ leftCloseAt 0.48 ∧ leftCloseAt 0.52 ∧ leftCloseAt 0.6) := by
  rintro ⟨-, ⟨δ, hδ, h⟩, -, -⟩
  set x := max (9599/20000 : ℚ) (0.48 - δ/2) with hxdef
  have hxa : (9599/20000 : ℚ) ≤ x := le_max_left _ _
  have hxb : (0.48 : ℚ) - δ/2 ≤ x := le_max_right _ _
  have hx1 : 0.48 - δ < x := by linarith
  have hx2 : x < 0.48 := by
    apply max_lt
    · norm_num
    · linarith
  have hwin : 0.48 - 1/2000 < x := by
    norm_num at hxa ⊢
    linarith
  have hclose := h x hx1 hx2
  rw [colorFor_win048 x hwin hx2,
      (by decide : getColorForValue 0.48 = (150, 150, 150))] at hclose
  exact absurd hclose.1 (by decide)

/-- C3 amended: within-one-unit left continuity holds at the boundaries
`0.4`, `0.52` and `0.6`, but not at `0.48`: just below `0.48` (within
`1/2000`) the green channel matches the boundary gray and the blue channel
is within one unit, while the red channel exceeds it by exactly 50. -/
theorem colormap_boundary_amended :
    leftCloseAt 0.4 ∧ leftCloseAt 0.52 ∧ leftCloseAt 0.6 ∧
    (∀ x : ℚ, 0.48 - 1/2000 < x → x < 0.48 →
      (getColorForValue x).1 - (getColorForValue 0.48).1 = 50 ∧
      (getColorForValue x).2.1 - (getColorForValue 0.48).2.1 = 0 ∧
      |(getColorForValue x).2.2 - (getColorForValue 0.48).2.2| ≤ 1) := by
  refine ⟨⟨1/2000, by norm_num, ?_⟩, ⟨1/2000, by norm_num, ?_⟩,
          ⟨1/2000, by norm_num, ?_⟩, ?_⟩
  · intro x hx1 hx2
    rw [colorFor_win04 x hx1 hx2, (by decide : getColorForValue 0.4 = (255, 200, 0))]
    unfold colorClose1
    decide
  · intro x hx1 hx2
    rw [colorFor_win052 x hx1 hx2, (by decide : getColorForValue 0.52 = (150, 150, 150))]
    unfold colorClose1
    decide
  · intro x hx1 hx2
    rw [colorFor_win06 x hx1 hx2, (by decide : getColorForValue 0.6 = (0, 255, 100))]
    unfold colorClose1
    decide
  · intro x hx1 hx2
    rw [colorFor_win048 x hx1 hx2, (by decide : getColorForValue 0.48 = (150, 150, 150))]
    decide

/-- Witness for the C3 amended theorem at the concrete input
`0.47995` just below the `0.48` boundary. -/
theorem colormap_boundary_amended_witness :
    (getColorForValue (9599/20000)).1 - (getColorForValue 0.48).1 = 50 ∧
    (getColorForValue (9599/20000)).2.1 - (getColorForValue 0.48).2.1 = 0 ∧
    |(getColorForValue (9599/20000)).2.2 - (getColorForValue 0.48).2.2| ≤ 1 :=
  colormap_boundary_amended.2.2.2 (9599/20000) (by norm_num) (by norm_num)
